import Mathlib

/-
Verification of the resilient tabular ingestion engine (src/main.py) and the
signed-URL issuance endpoint (src/services/uploader/main.py).

The ingestion function `main` is embedded as a pure state machine:
  * Python strings are lists of characters, with str.strip modelled by
    `pyStrip` (dropping whitespace at both ends);
  * Python dict rows produced by csv.DictReader are assoc lists with keys of
    type `Option PyStr` (csv.DictReader stores excess fields of a row under
    the key None, its restkey default) and values of type `PyVal`;
  * the database is an oracle `Env` deciding, per 1-based row index, whether
    the insert attempt (SAVEPOINT / INSERT / RELEASE, lines 77-79), the
    rollback-to-savepoint (line 90), the full-transaction rollback (line 92)
    and the reconnect (lines 99-100) succeed, plus the fate of the final
    commit (line 106) and of cursor close (line 116);
  * observable behaviour is collected in `Outcome`: rows_inserted (line 80),
    the count of "Skipping empty row" log events (line 66), the count of
    "Insert failed for row" log events (line 86), reconnect attempts and
    successes, sleep calls (line 97), whether commit succeeded, which close
    calls of the finally block (lines 114-119) ran, and the uncaught Python
    exception propagating out of `main`, if any.
The lexing of delimited text into field lists is the csv module's and is
taken as given: a record is the list of field strings of one data line.
-/

namespace Pipeline

/-- A Python string, as a list of characters. -/
abbrev PyStr := List Char

/-- The characters of a string literal, for concrete inputs. -/
def chars (s : String) : PyStr := s.data

/-- Python str.strip(): remove leading and trailing whitespace. -/
def pyStrip (s : PyStr) : PyStr :=
  ((s.dropWhile Char.isWhitespace).reverse.dropWhile Char.isWhitespace).reverse

/-- A Python value as it can appear in a csv.DictReader row dict: a string
field, None (missing trailing field, restval default), or the list of excess
fields stored under the restkey. -/
inductive PyVal where
  | str (s : PyStr)
  | none
  | list (l : List PyStr)
deriving DecidableEq, Repr

/-- The Python exceptions relevant to the ingestion loop. -/
inductive PyError where
  | keyError (k : PyStr)
  | attributeError
  | dbError
deriving DecidableEq, Repr

/-- A csv.DictReader row: ordered key-value pairs, key None for excess
fields. Keys coming from a CSV header are expected distinct. -/
abbrev Row := List (Option PyStr × PyVal)

/-- Python dict lookup `row[k]` on a row with distinct keys. -/
def rowGet (row : Row) (k : Option PyStr) : Option PyVal :=
  (row.find? (fun p => p.1 == k)).map (fun p => p.2)

/-- One row dict as built by csv.DictReader.__next__: fieldnames zipped with
the row's fields; missing trailing fields filled with None (restval); excess
fields collected in a list under the key None (restkey). -/
def dictReadRow (fieldnames : List PyStr) (record : List PyStr) : Row :=
  let base := (fieldnames.zip (record.map PyVal.str)) ++
    ((fieldnames.drop record.length).map (fun c => (c, PyVal.none)))
  let keyed : Row := base.map (fun p => ((some p.1 : Option PyStr), p.2))
  if fieldnames.length < record.length then
    keyed ++ [((none : Option PyStr), PyVal.list (record.drop fieldnames.length))]
  else
    keyed

/-- The record source: csv.DictReader over pre-split records, skipping fully
blank rows as DictReader.__next__ does (`while row == []`). -/
def recordSource (fieldnames : List PyStr) (records : List (List PyStr)) :
    List Row :=
  (records.filter (fun r => !r.isEmpty)).map (dictReadRow fieldnames)

/-- Line 63's per-value treatment: `row[col].strip() if isinstance(row[col], str)
else row[col]` — strip string values, leave None and lists untouched. -/
def trimVal : PyVal → PyVal
  | .str s => .str (pyStrip s)
  | v => v

/-- Line 62: `columns = [c.strip() for c in row.keys()]`, evaluated left to
right, stopping at the first failure. A None key (excess fields present)
raises AttributeError, since None has no strip method. -/
def stripKeys : Row → Except PyError (List PyStr)
  | [] => Except.ok []
  | p :: rest =>
    match p.1 with
    | some s => (stripKeys rest).map (fun cs => pyStrip s :: cs)
    | none => Except.error PyError.attributeError

/-- Line 63: `values = [row[col].strip() if isinstance(row[col], str) else
row[col] for col in columns]`, evaluated left to right, stopping at the first
failure. The lookup uses the stripped column name, so a header name carrying
surrounding whitespace raises KeyError. -/
def lookupVals (row : Row) : List PyStr → Except PyError (List PyVal)
  | [] => Except.ok []
  | c :: cs =>
    match rowGet row (some c) with
    | some v => (lookupVals row cs).map (fun vs => trimVal v :: vs)
    | none => Except.error (PyError.keyError c)

/-- Lines 62-63 together: the normalization stage of one row. -/
def normalize (row : Row) : Except PyError (List PyStr × List PyVal) := do
  let cols ← stripKeys row
  let vals ← lookupVals row cols
  return (cols, vals)

/-- Line 65's test on one (already stripped) value: `v == "" or v is None`. -/
def isEmptyVal : PyVal → Bool
  | .str s => s.isEmpty
  | .none => true
  | .list _ => false

/-- Line 65: `all(v == "" or v is None for v in values)`. -/
def isEmptyVals (vals : List PyVal) : Bool :=
  vals.all isEmptyVal

/-- Whether a row would be classified all-empty by lines 62-65 (false when
normalization raises instead of classifying). -/
def emptyRow (row : Row) : Bool :=
  match normalize row with
  | .ok cv => isEmptyVals cv.2
  | .error _ => false

/-- Whether lines 62-63 process the row without raising. -/
def normalizes (row : Row) : Bool :=
  match normalize row with
  | .ok _ => true
  | .error _ => false

/-- Whether the row normalizes without raising and is not all-empty, i.e.
reaches the insert attempt. -/
def loadableRow (row : Row) : Bool :=
  match normalize row with
  | .ok cv => !isEmptyVals cv.2
  | .error _ => false

/-- The parameterized insert statement of lines 69-74: fixed schema-qualified
table, the row's columns as identifiers, one placeholder per column. -/
structure InsertStatement where
  schema : PyStr
  table : PyStr
  columns : List PyStr
  placeholderCount : Nat
deriving DecidableEq, Repr

/-- Default schema name (line 25). -/
def SCHEMA : PyStr := chars "company"

/-- Lines 69-74: the statement builder. It is total — it yields an
InsertStatement for every column set, including the empty one. -/
def buildInsert (cols : List PyStr) : InsertStatement :=
  { schema := SCHEMA, table := chars "employee", columns := cols,
    placeholderCount := cols.length }

/-- The database/environment oracle: success of each fallible call, per
1-based row index for the in-loop calls. -/
structure Env where
  attemptOk : Nat → Bool
  rollbackSpOk : Nat → Bool
  fullRollbackOk : Nat → Bool
  reconnectOk : Nat → Bool
  commitOk : Bool
  curCloseOk : Bool

/-- The fate of one row in the loop body (lines 61-103). -/
inductive RowStep where
  | skipped
  | inserted
  | rejectedRecovered
  | fatalReconnected
  | fatalHalted
  | crashedNormalize (e : PyError)
  | crashedRollback
deriving DecidableEq, Repr

/-- The loop body for row `i` (lines 61-103): normalize (may raise), skip if
all-empty, else attempt the insert; on failure log and try
ROLLBACK TO SAVEPOINT; if that fails, `conn.rollback()` on line 92 is
unprotected and a failure there propagates; otherwise close the old
connection, sleep, and attempt one reconnect, breaking out on failure. -/
def rowStep (env : Env) (i : Nat) (row : Row) : RowStep :=
  match normalize row with
  | .error e => .crashedNormalize e
  | .ok cv =>
    if isEmptyVals cv.2 then .skipped
    else if env.attemptOk i then .inserted
    else if env.rollbackSpOk i then .rejectedRecovered
    else if env.fullRollbackOk i then
      (if env.reconnectOk i then .fatalReconnected else .fatalHalted)
    else .crashedRollback

/-- Whether the loop body reached `cur.execute(insert_stmt, values)` for the
row (line 78): every fate except skipping and a normalization crash. -/
def attemptMade : RowStep → Bool
  | .skipped => false
  | .crashedNormalize _ => false
  | _ => true

/-- Counters accumulated while the loop runs. -/
structure LoopState where
  inserted : Nat
  skippedEmpty : Nat
  rejected : Nat
  reconnectAttempts : Nat
  reconnectCount : Nat
  sleeps : Nat
deriving DecidableEq, Repr

/-- All counters zero, as before line 61. -/
def initState : LoopState :=
  ⟨0, 0, 0, 0, 0, 0⟩

/-- How the for loop of lines 61-103 ended. -/
inductive LoopExit where
  | finishedRows
  | haltedReconnectFailed
  | raised (e : PyError)
deriving DecidableEq, Repr

/-- The for loop of lines 61-103, one row at a time. `rejected` counts the
"Insert failed for row" log events of line 86, which fire for every failed
attempt regardless of its later fate; `reconnectCount` counts successful
reconnects, `reconnectAttempts` all reconnect attempts, `sleeps` the
time.sleep(1) calls of line 97. -/
def loop (env : Env) (i : Nat) (rows : List Row) (s : LoopState) :
    LoopState × LoopExit :=
  match rows with
  | [] => (s, .finishedRows)
  | row :: rest =>
    match rowStep env i row with
    | .skipped =>
      loop env (i + 1) rest { s with skippedEmpty := s.skippedEmpty + 1 }
    | .inserted =>
      loop env (i + 1) rest { s with inserted := s.inserted + 1 }
    | .rejectedRecovered =>
      loop env (i + 1) rest { s with rejected := s.rejected + 1 }
    | .fatalReconnected =>
      loop env (i + 1) rest
        { s with rejected := s.rejected + 1, sleeps := s.sleeps + 1,
                 reconnectAttempts := s.reconnectAttempts + 1,
                 reconnectCount := s.reconnectCount + 1 }
    | .fatalHalted =>
      ({ s with rejected := s.rejected + 1, sleeps := s.sleeps + 1,
                reconnectAttempts := s.reconnectAttempts + 1 },
       .haltedReconnectFailed)
    | .crashedNormalize e => (s, .raised e)
    | .crashedRollback =>
      ({ s with rejected := s.rejected + 1 }, .raised PyError.dbError)

/-- The observable outcome of one run of `main` past the connection setup:
counters, commit fate, which close calls of the finally block (lines 114-119)
ran, and the uncaught exception if one propagated. -/
structure Outcome where
  inserted : Nat
  skippedEmpty : Nat
  rejected : Nat
  reconnectAttempts : Nat
  reconnectCount : Nat
  sleeps : Nat
  committed : Bool
  curCloseCalled : Bool
  connCloseCalled : Bool
  raised : Option PyError
deriving DecidableEq, Repr

/-- Lines 59-121 of `main`, after a connection is established: run the loop,
then finalize. On a normal loop exit the commit of line 106 is attempted
(a commit failure is caught and rolled back best-effort) and the finally
block calls cur.close(), then conn.close() only if cur.close() did not raise.
After a failed reconnect the loop broke out with the connection already
closed, so the commit necessarily fails and committed is false. If the loop
raised, nothing after it runs: no commit, no close. -/
def ingest (env : Env) (rows : List Row) : Outcome :=
  match loop env 1 rows initState with
  | (s, .finishedRows) =>
    { inserted := s.inserted, skippedEmpty := s.skippedEmpty,
      rejected := s.rejected, reconnectAttempts := s.reconnectAttempts,
      reconnectCount := s.reconnectCount, sleeps := s.sleeps,
      committed := env.commitOk, curCloseCalled := true,
      connCloseCalled := env.curCloseOk, raised := Option.none }
  | (s, .haltedReconnectFailed) =>
    { inserted := s.inserted, skippedEmpty := s.skippedEmpty,
      rejected := s.rejected, reconnectAttempts := s.reconnectAttempts,
      reconnectCount := s.reconnectCount, sleeps := s.sleeps,
      committed := false, curCloseCalled := true,
      connCloseCalled := env.curCloseOk, raised := Option.none }
  | (s, .raised e) =>
    { inserted := s.inserted, skippedEmpty := s.skippedEmpty,
      rejected := s.rejected, reconnectAttempts := s.reconnectAttempts,
      reconnectCount := s.reconnectCount, sleeps := s.sleeps,
      committed := false, curCloseCalled := false,
      connCloseCalled := false, raised := some e }

/-- The ingestion entry point from parsed CSV text (lines 46-121): build the
row dicts with csv.DictReader, then run the loader. -/
def ingestCsv (env : Env) (fieldnames : List PyStr)
    (records : List (List PyStr)) : Outcome :=
  ingest env (recordSource fieldnames records)

/-- An environment in which every database call succeeds. -/
def envAllOk : Env :=
  { attemptOk := fun _ => true, rollbackSpOk := fun _ => true,
    fullRollbackOk := fun _ => true, reconnectOk := fun _ => true,
    commitOk := true, curCloseOk := true }

/-- A row dict whose keys are all present strings, as csv.DictReader builds
when the row has no excess fields. -/
def liftRow (row : List (PyStr × PyVal)) : Row :=
  row.map (fun p => ((some p.1 : Option PyStr), p.2))

/-- An environment whose savepoint rollback and full rollback both fail on
every row: the unprotected `conn.rollback()` of line 92 then raises. -/
def envRollbackBroken : Env :=
  { attemptOk := fun _ => false, rollbackSpOk := fun _ => false,
    fullRollbackOk := fun _ => false, reconnectOk := fun _ => true,
    commitOk := true, curCloseOk := true }

/-- An environment in which every insert attempt fails fatally (savepoint
rollback fails too) but the full rollback and the reconnect succeed. -/
def envFatalReconnect : Env :=
  { attemptOk := fun _ => false, rollbackSpOk := fun _ => false,
    fullRollbackOk := fun _ => true, reconnectOk := fun _ => true,
    commitOk := true, curCloseOk := true }

/-- A one-column, non-empty row dict with a well-formed key. -/
def rowPlain : Row :=
  [(some (chars "a"), PyVal.str (chars "1"))]

/-- One all-empty and one loadable row, both with well-formed keys. -/
def rowsMixed : List Row :=
  [[(some (chars "a"), PyVal.str (chars "  "))],
   [(some (chars "a"), PyVal.str (chars "1"))]]

/-- A row dict whose only key carries surrounding whitespace, as
csv.DictReader builds it from a header written ` dept`. -/
def rowWhitespaceKey : Row :=
  [(some (chars " dept"), PyVal.str (chars "Eng"))]

/-- A row dict whose only value is blank after trimming but whose key
carries a leading space: all-empty in the claim's sense, yet lines 62-63
raise before the emptiness test of line 65 is reached. -/
def rowEmptyPaddedKey : Row :=
  [(some (chars " a"), PyVal.str (chars "  "))]

/-- A two-column row with one value needing trimming and one None value. -/
def rowTrimming : List (PyStr × PyVal) :=
  [(chars "a", PyVal.str (chars " x ")), (chars "b", PyVal.none)]

end Pipeline

namespace Uploader

open Pipeline

/-- Python `s.replace("..", "_")` from line 84 of the uploader: scan left to
right, replacing each non-overlapping occurrence of two consecutive dots by
one underscore. -/
def replaceDotDot : List Char → List Char
  | [] => []
  | [c] => [c]
  | c1 :: c2 :: cs =>
    if c1 = '.' ∧ c2 = '.' then '_' :: replaceDotDot cs
    else c1 :: replaceDotDot (c2 :: cs)

/-- Python `s.replace("/", "_")` from line 84 of the uploader: replace every
slash by an underscore. -/
def replaceSlash : List Char → List Char
  | [] => []
  | c :: cs => (if c = '/' then '_' else c) :: replaceSlash cs

/-- Line 84: `safe_name = filename.replace("..", "_").replace("/", "_")`. -/
def sanitizeName (fn : List Char) : List Char :=
  replaceSlash (replaceDotDot fn)

/-- Whether a character list contains two consecutive dots. -/
def hasDD : List Char → Bool
  | [] => false
  | [_] => false
  | c1 :: c2 :: cs => (c1 = '.' && c2 = '.') || hasDD (c2 :: cs)

/-- The request-dependent inputs of the /get-signed-url endpoint: the decoded
identity token (uid, email) if verification succeeded, the filename of the
JSON body if present, and the content type. -/
structure UpRequest where
  authDecoded : Option (PyStr × Option PyStr)
  filename : Option PyStr
  contentType : PyStr

/-- The environment of the endpoint: configured upload prefix, the approval
lookup's result (its own errors are already coerced to False inside
is_user_approved), and whether URL signing and the audit write succeed. -/
structure UpEnv where
  uploadPrefix : PyStr
  approved : Bool
  signOk : Bool
  auditOk : Bool

/-- The observable HTTP response: status code, the object name echoed in the
body of a 200 response, and whether a signed URL was returned. -/
structure UpResponse where
  status : Nat
  objectName : Option PyStr
  hasUrl : Bool
deriving DecidableEq, Repr

/-- The Firestore `col.add(doc)` call of line 60: succeeds or raises. -/
def firestoreAdd (ok : Bool) : Except PyError Unit :=
  if ok then Except.ok () else Except.error PyError.dbError

/-- Lines 49-62: record_upload_request wraps the Firestore write in
try/except and logs on failure; it returns normally in both cases (the
result says whether the audit record was written) and never raises. -/
def record_upload_request (auditOk : Bool) : Bool :=
  match firestoreAdd auditOk with
  | Except.ok _ => true
  | Except.error _ => false

/-- Lines 64-106: the /get-signed-url endpoint. 401 without a verified
token, 403 when not approved, 400 when the filename is missing or empty
(`if not filename`), 500 when signing raises; otherwise the audit write is
attempted fire-and-forget and the signed URL is returned with 200. The JSON
body is taken as parsed. -/
def get_signed_url (env : UpEnv) (req : UpRequest) : UpResponse :=
  match req.authDecoded with
  | none => ⟨401, none, false⟩
  | some _ =>
    if !env.approved then ⟨403, none, false⟩
    else
      match req.filename with
      | none => ⟨400, none, false⟩
      | some fn =>
        if fn.isEmpty then ⟨400, none, false⟩
        else
          let objectName := env.uploadPrefix ++ sanitizeName fn
          if !env.signOk then ⟨500, none, false⟩
          else
            let _ := record_upload_request env.auditOk
            ⟨200, some objectName, true⟩

/-- A fully successful environment with the default upload prefix. -/
def upEnvOk : UpEnv :=
  { uploadPrefix := chars "incoming/", approved := true,
    signOk := true, auditOk := true }

/-- A well-formed authenticated request with a plain filename. -/
def upReqPlain : UpRequest :=
  { authDecoded := some (chars "u1", some (chars "u1@example.com")),
    filename := some (chars "data.csv"), contentType := chars "text/csv" }

/-- An authenticated request with a path-traversal filename. -/
def upReqTraversal : UpRequest :=
  { authDecoded := some (chars "u1", some (chars "u1@example.com")),
    filename := some (chars "../../etc/passwd"),
    contentType := chars "text/csv" }

end Uploader

namespace Pipeline

/-- Helper: liftRow unfolding on a cons cell. -/
theorem liftRow_cons (p : PyStr × PyVal) (rest : List (PyStr × PyVal)) :
    liftRow (p :: rest) = ((some p.1 : Option PyStr), p.2) :: liftRow rest := rfl

/-- Helper: stripping the keys of a row with whitespace-free string keys
yields exactly those keys. -/
theorem stripKeys_lift (row : List (PyStr × PyVal))
    (hk : ∀ p ∈ row, pyStrip p.1 = p.1) :
    stripKeys (liftRow row) = Except.ok (row.map Prod.fst) := by
  induction row with
  | nil => rfl
  | cons p rest ih =>
    have hp := hk p (List.mem_cons_self p rest)
    have hrest : ∀ q ∈ rest, pyStrip q.1 = q.1 :=
      fun q hq => hk q (List.mem_cons_of_mem p hq)
    rw [liftRow_cons]
    simp only [stripKeys, ih hrest, hp, Except.map, List.map_cons]

/-- Helper: a dict lookup skips a leading pair with a different key. -/
theorem rowGet_lift_cons_ne (p : PyStr × PyVal) (rest : List (PyStr × PyVal))
    (c : PyStr) (hne : c ≠ p.1) :
    rowGet (liftRow (p :: rest)) (some c) = rowGet (liftRow rest) (some c) := by
  rw [liftRow_cons]
  simp only [rowGet]
  rw [List.find?_cons_of_neg]
  simp only [beq_iff_eq, Option.some.injEq]
  exact fun h => hne h.symm

/-- Helper: a dict lookup finds a leading pair with the matching key. -/
theorem rowGet_lift_cons_self (p : PyStr × PyVal) (rest : List (PyStr × PyVal)) :
    rowGet (liftRow (p :: rest)) (some p.1) = some p.2 := by
  rw [liftRow_cons]
  simp only [rowGet]
  rw [List.find?_cons_of_pos _ (by simp)]
  simp

/-- Helper: line 63's lookups depend only on the values of rowGet at the
looked-up columns. -/
theorem lookupVals_congr (big small : Row) (cols : List PyStr)
    (h : ∀ c ∈ cols, rowGet big (some c) = rowGet small (some c)) :
    lookupVals big cols = lookupVals small cols := by
  induction cols with
  | nil => rfl
  | cons c cs ih =>
    have hc := h c (List.mem_cons_self c cs)
    have hcs : ∀ d ∈ cs, rowGet big (some d) = rowGet small (some d) :=
      fun d hd => h d (List.mem_cons_of_mem c hd)
    simp only [lookupVals, hc, ih hcs]

/-- Helper: looking every distinct key of a row back up returns its values,
trimmed. -/
theorem lookupVals_lift (row : List (PyStr × PyVal))
    (hnd : (row.map Prod.fst).Nodup) :
    lookupVals (liftRow row) (row.map Prod.fst)
      = Except.ok (row.map (fun p => trimVal p.2)) := by
  induction row with
  | nil => rfl
  | cons p rest ih =>
    rw [List.map_cons, List.nodup_cons] at hnd
    have htail : lookupVals (liftRow (p :: rest)) (rest.map Prod.fst)
        = lookupVals (liftRow rest) (rest.map Prod.fst) := by
      apply lookupVals_congr
      intro c hc
      exact rowGet_lift_cons_ne p rest c (fun hc2 => hnd.1 (hc2 ▸ hc))
    rw [List.map_cons]
    simp only [lookupVals, rowGet_lift_cons_self p rest, htail, ih hnd.2,
      Except.map, List.map_cons]

/-- Helper: normalization of a record with distinct whitespace-free string
keys succeeds, returning the keys and the trimmed values. -/
theorem normalize_lift (row : List (PyStr × PyVal))
    (hk : ∀ p ∈ row, pyStrip p.1 = p.1)
    (hnd : (row.map Prod.fst).Nodup) :
    normalize (liftRow row)
      = Except.ok (row.map Prod.fst, row.map (fun p => trimVal p.2)) := by
  simp [normalize, stripKeys_lift row hk, lookupVals_lift row hnd,
    Bind.bind, Except.bind, Functor.map, Except.map, Pure.pure, Except.pure]

/-- Helper: a trimmed value passes line 65's emptiness test exactly when it
is None or a string that strips to empty. -/
theorem isEmptyVal_trim_iff (v : PyVal) :
    isEmptyVal (trimVal v) = true ↔
      v = PyVal.none ∨ ∃ s, v = PyVal.str s ∧ pyStrip s = [] := by
  cases v <;> simp [trimVal, isEmptyVal]

/-- Helper: the fate of a row whose normalization succeeds, as a chain of
oracle tests mirroring lines 65-103. -/
theorem rowStep_ok (env : Env) (i : Nat) (row : Row)
    (cv : List PyStr × List PyVal) (h : normalize row = Except.ok cv) :
    rowStep env i row =
      if isEmptyVals cv.2 then RowStep.skipped
      else if env.attemptOk i then RowStep.inserted
      else if env.rollbackSpOk i then RowStep.rejectedRecovered
      else if env.fullRollbackOk i then
        (if env.reconnectOk i then RowStep.fatalReconnected
         else RowStep.fatalHalted)
      else RowStep.crashedRollback := by
  simp [rowStep, h]

/-- Helper: emptiness classification of a row that normalizes. -/
theorem emptyRow_eq (row : Row) (cv : List PyStr × List PyVal)
    (h : normalize row = Except.ok cv) : emptyRow row = isEmptyVals cv.2 := by
  simp [emptyRow, h]

/-- Helper: when every savepoint rollback succeeds and every row normalizes,
the loop finishes all rows, counts each all-empty row in skippedEmpty once,
and each non-empty row in inserted or rejected. -/
theorem loop_no_fatal (env : Env) (hrb : ∀ j, env.rollbackSpOk j = true) :
    ∀ (rows : List Row) (i : Nat) (s : LoopState),
      (∀ row ∈ rows, normalizes row = true) →
      (loop env i rows s).2 = LoopExit.finishedRows ∧
      (loop env i rows s).1.skippedEmpty
        = s.skippedEmpty + (rows.filter emptyRow).length ∧
      (loop env i rows s).1.inserted + (loop env i rows s).1.rejected
        = s.inserted + s.rejected + (rows.filter (fun r => !emptyRow r)).length := by
  intro rows
  induction rows with
  | nil => intro i s _; simp [loop]
  | cons row rest ih =>
    intro i s h
    have hN := h row (List.mem_cons_self row rest)
    have hrest : ∀ r ∈ rest, normalizes r = true :=
      fun r hr => h r (List.mem_cons_of_mem row hr)
    rcases hcv : normalize row with e | cv
    · simp [normalizes, hcv] at hN
    have hstep := rowStep_ok env i row cv hcv
    have hemp := emptyRow_eq row cv hcv
    by_cases he : isEmptyVals cv.2 = true
    · rw [if_pos he] at hstep
      have hloop : loop env i (row :: rest) s
          = loop env (i + 1) rest { s with skippedEmpty := s.skippedEmpty + 1 } := by
        rw [loop, hstep]
      obtain ⟨h1, h2, h3⟩ := ih (i + 1) { s with skippedEmpty := s.skippedEmpty + 1 } hrest
      rw [hloop]
      refine ⟨h1, ?_, ?_⟩
      · rw [h2]
        simp [List.filter_cons, hemp, he]
        omega
      · rw [h3]
        simp [List.filter_cons, hemp, he]
    · rw [if_neg he] at hstep
      have heb : isEmptyVals cv.2 = false := by
        exact Bool.not_eq_true _ |>.mp he
      by_cases ha : env.attemptOk i = true
      · rw [if_pos ha] at hstep
        have hloop : loop env i (row :: rest) s
            = loop env (i + 1) rest { s with inserted := s.inserted + 1 } := by
          rw [loop, hstep]
        obtain ⟨h1, h2, h3⟩ := ih (i + 1) { s with inserted := s.inserted + 1 } hrest
        rw [hloop]
        refine ⟨h1, ?_, ?_⟩
        · rw [h2]
          simp [List.filter_cons, hemp, heb]
        · rw [h3]
          simp [List.filter_cons, hemp, heb]
          omega
      · rw [if_neg ha, if_pos (hrb i)] at hstep
        have hloop : loop env i (row :: rest) s
            = loop env (i + 1) rest { s with rejected := s.rejected + 1 } := by
          rw [loop, hstep]
        obtain ⟨h1, h2, h3⟩ := ih (i + 1) { s with rejected := s.rejected + 1 } hrest
        rw [hloop]
        refine ⟨h1, ?_, ?_⟩
        · rw [h2]
          simp [List.filter_cons, hemp, heb]
        · rw [h3]
          simp [List.filter_cons, hemp, heb]
          omega

/-- Helper: when every insert attempt succeeds and every row is loadable,
the loop inserts every row and finishes. -/
theorem loop_all_insert (env : Env) (hatt : ∀ j, env.attemptOk j = true) :
    ∀ (rows : List Row) (i : Nat) (s : LoopState),
      (∀ row ∈ rows, loadableRow row = true) →
      loop env i rows s
        = ({ s with inserted := s.inserted + rows.length },
           LoopExit.finishedRows) := by
  intro rows
  induction rows with
  | nil => intro i s _; simp [loop]
  | cons row rest ih =>
    intro i s h
    have hN := h row (List.mem_cons_self row rest)
    have hrest : ∀ r ∈ rest, loadableRow r = true :=
      fun r hr => h r (List.mem_cons_of_mem row hr)
    rcases hcv : normalize row with e | cv
    · simp [loadableRow, hcv] at hN
    simp only [loadableRow, hcv, Bool.not_eq_true'] at hN
    have hstep := rowStep_ok env i row cv hcv
    rw [hN, if_neg (by simp), if_pos (hatt i)] at hstep
    have hloop : loop env i (row :: rest) s
        = loop env (i + 1) rest { s with inserted := s.inserted + 1 } := by
      rw [loop, hstep]
    rw [hloop, ih (i + 1) _ hrest]
    simp [List.length_cons]
    omega

/-- Claim C1. The claim says a malformed row never aborts the batch with an
uncaught exception; the code contradicts it: a header name carrying
surrounding whitespace is stripped before being used to index the
un-stripped row dict (lines 62-63), so KeyError propagates out of `main`
with nothing inserted or committed. -/
theorem whitespace_header_raises_keyError :
    (ingestCsv envAllOk [chars "id", chars " name"] [[chars "1", chars "x"]]).raised
      = some (PyError.keyError (chars "name")) ∧
    (ingestCsv envAllOk [chars "id", chars " name"] [[chars "1", chars "x"]]).committed
      = false := by
  decide

/-- Claim C2. The claim says a row with more fields than the header has
column names is processed with the excess ignored; the code contradicts it:
csv.DictReader stores the excess fields under the key None, and line 62's
`c.strip()` then raises AttributeError, aborting the batch. -/
theorem excess_fields_raise_attributeError :
    (ingestCsv envAllOk [chars "a", chars "b"] [[chars "1", chars "2", chars "3"]]).raised
      = some PyError.attributeError ∧
    (ingestCsv envAllOk [chars "a", chars "b"] [[chars "1", chars "2", chars "3"]]).inserted
      = 0 := by
  decide

/-- Counterexample to claim C3 as stated: a row whose values are all empty
after trimming is not always counted in skippedEmpty — when its key carries
surrounding whitespace, line 63 raises KeyError before line 65's emptiness
test, so the row is counted nowhere and the batch aborts. -/
theorem empty_padded_key_row_never_counted :
    (ingest envAllOk [rowEmptyPaddedKey]).skippedEmpty = 0 ∧
    (ingest envAllOk [rowEmptyPaddedKey]).inserted = 0 ∧
    (ingest envAllOk [rowEmptyPaddedKey]).rejected = 0 ∧
    (ingest envAllOk [rowEmptyPaddedKey]).raised
      = some (PyError.keyError (chars "a")) := by
  decide

/-- Claim C3 (amended): in runs in which every row normalizes without
raising and no savepoint rollback fails (so every row is reached), each
all-empty row counts exactly once in skippedEmpty and never in inserted or
rejected: skippedEmpty is the number of all-empty rows, and inserted plus
rejected is the number of non-empty rows; no exception propagates. Rows
outside those conditions are not accounted: a row that raises during
normalization aborts the batch uncounted, and rows after a crash or a
failed reconnect are never processed. -/
theorem empty_rows_counted_once (env : Env) (rows : List Row)
    (h1 : ∀ row ∈ rows, normalizes row = true)
    (h2 : ∀ j, env.rollbackSpOk j = true) :
    (ingest env rows).skippedEmpty = (rows.filter emptyRow).length ∧
    (ingest env rows).inserted + (ingest env rows).rejected
      = (rows.filter (fun r => !emptyRow r)).length ∧
    (ingest env rows).raised = Option.none := by
  have hl := loop_no_fatal env h2 rows 1 initState h1
  rcases hres : loop env 1 rows initState with ⟨s2, ex⟩
  rw [hres] at hl
  obtain ⟨hex, hsk, hir⟩ := hl
  simp only at hex
  subst hex
  simp only [ingest, hres]
  simp only at hsk hir
  refine ⟨?_, ?_, ?_⟩
  · rw [hsk]; simp [initState]
  · rw [hir]; simp [initState]
  · simp

/-- Witness for claim C3 on a dataset with one all-empty and one loadable
row. -/
theorem empty_rows_counted_once_witness :
    (ingest envAllOk rowsMixed).skippedEmpty = 1 ∧
    (ingest envAllOk rowsMixed).inserted + (ingest envAllOk rowsMixed).rejected = 1 ∧
    (ingest envAllOk rowsMixed).raised = Option.none := by
  have h := empty_rows_counted_once envAllOk rowsMixed (by decide) (fun j => rfl)
  refine ⟨?_, ?_, h.2.2⟩
  · rw [h.1]; decide
  · rw [h.2.1]; decide

/-- Claim C4. When every row is non-empty and loadable, every insert attempt
succeeds and the final commit succeeds, the inserted count equals the number
of rows and the batch finishes committed. -/
theorem all_loadable_all_inserted (env : Env) (rows : List Row)
    (h1 : ∀ row ∈ rows, loadableRow row = true)
    (h2 : ∀ j, env.attemptOk j = true)
    (h3 : env.commitOk = true) :
    (ingest env rows).inserted = rows.length ∧
    (ingest env rows).committed = true ∧
    (ingest env rows).raised = Option.none := by
  have hl := loop_all_insert env h2 rows 1 initState h1
  simp only [ingest]
  rw [hl]
  simp [initState, h3]

/-- Witness for claim C4 on a one-row loadable dataset. -/
theorem all_loadable_all_inserted_witness :
    (ingest envAllOk [rowPlain]).inserted = 1 ∧
    (ingest envAllOk [rowPlain]).committed = true := by
  have h := all_loadable_all_inserted envAllOk [rowPlain] (by decide)
    (fun j => rfl) rfl
  exact ⟨by simpa using h.1, h.2.1⟩

/-- Counterexample to claim C5 as stated: when the rollback-to-savepoint
fails and the full-transaction rollback of line 92 also fails, no reconnect
is attempted at all — the unprotected `conn.rollback()` raises and the
exception propagates, instead of the claimed one reconnect attempt. -/
theorem rollback_failure_skips_reconnect :
    (ingest envRollbackBroken [rowPlain]).raised = some PyError.dbError ∧
    (ingest envRollbackBroken [rowPlain]).reconnectAttempts = 0 ∧
    (ingest envRollbackBroken [rowPlain]).sleeps = 0 := by
  decide

/-- Claim C5 (amended): when rollback-to-savepoint fails and the subsequent
full rollback succeeds, exactly one reconnect attempt is made after one
sleep; on reconnect success processing resumes with the next row and the
reconnect count rises by exactly one; on reconnect failure the loop stops
with no further rows attempted, proceeding to finalization. -/
theorem fatal_row_one_reconnect (env : Env) (i : Nat) (badRow : Row)
    (rest : List Row) (s : LoopState) (cv : List PyStr × List PyVal)
    (h1 : normalize badRow = Except.ok cv) (h2 : isEmptyVals cv.2 = false)
    (h3 : env.attemptOk i = false) (h4 : env.rollbackSpOk i = false)
    (h5 : env.fullRollbackOk i = true) :
    (env.reconnectOk i = true →
      loop env i (badRow :: rest) s
        = loop env (i + 1) rest
            { s with rejected := s.rejected + 1, sleeps := s.sleeps + 1,
                     reconnectAttempts := s.reconnectAttempts + 1,
                     reconnectCount := s.reconnectCount + 1 }) ∧
    (env.reconnectOk i = false →
      loop env i (badRow :: rest) s
        = ({ s with rejected := s.rejected + 1, sleeps := s.sleeps + 1,
                    reconnectAttempts := s.reconnectAttempts + 1 },
           LoopExit.haltedReconnectFailed)) := by
  have hstep := rowStep_ok env i badRow cv h1
  rw [h2, if_neg (by simp), if_neg (by simp [h3]), if_neg (by simp [h4]),
    if_pos h5] at hstep
  constructor <;> intro h6
  · have hstep2 : rowStep env i badRow = RowStep.fatalReconnected := by
      rw [hstep, h6]
      simp
    rw [loop, hstep2]
  · have hstep2 : rowStep env i badRow = RowStep.fatalHalted := by
      rw [hstep, h6]
      simp
    rw [loop, hstep2]

/-- Witness for claim C5 (amended): one fatal row with a successful
reconnect yields one sleep, one attempt and one successful reconnect. -/
theorem fatal_row_one_reconnect_witness :
    loop envFatalReconnect 1 [rowPlain] initState
      = (⟨0, 0, 1, 1, 1, 1⟩, LoopExit.finishedRows) := by
  have h := (fatal_row_one_reconnect envFatalReconnect 1 rowPlain [] initState
    ([chars "a"], [PyVal.str (chars "1")]) rfl rfl rfl rfl rfl).1 rfl
  rw [h]
  rfl

/-- Counterexample to claim C6 as stated: the normalizer does raise — a
record whose only key carries surrounding whitespace makes line 63's lookup
fail with KeyError, because the key was stripped before indexing. -/
theorem normalizer_raises_on_whitespace_key :
    normalize rowWhitespaceKey
      = Except.error (PyError.keyError (chars "dept")) := rfl

/-- Claim C6 (amended): for records whose keys are distinct strings without
surrounding whitespace, normalization succeeds without raising, trims string
values, leaves None and non-string values untouched, and classifies the
record as all-empty exactly when every value is None or a string that trims
to empty; such a record is skipped exactly when all-empty and otherwise its
insert is attempted (there is no other malformed case). -/
theorem normalizer_total_and_classifies (row : List (PyStr × PyVal))
    (hk : ∀ p ∈ row, pyStrip p.1 = p.1)
    (hnd : (row.map Prod.fst).Nodup) :
    normalize (liftRow row)
      = Except.ok (row.map Prod.fst, row.map (fun p => trimVal p.2)) ∧
    (isEmptyVals (row.map (fun p => trimVal p.2)) = true ↔
      ∀ p ∈ row, p.2 = PyVal.none ∨ ∃ s, p.2 = PyVal.str s ∧ pyStrip s = []) ∧
    (∀ env i, rowStep env i (liftRow row) = RowStep.skipped ↔
      isEmptyVals (row.map (fun p => trimVal p.2)) = true) ∧
    (∀ env i, attemptMade (rowStep env i (liftRow row))
      = !isEmptyVals (row.map (fun p => trimVal p.2))) := by
  have hn := normalize_lift row hk hnd
  refine ⟨hn, ?_, ?_, ?_⟩
  · simp only [isEmptyVals, List.all_eq_true]
    constructor
    · intro h p hp
      exact (isEmptyVal_trim_iff p.2).mp (h _ (List.mem_map_of_mem _ hp))
    · intro h x hx
      rcases List.mem_map.mp hx with ⟨p, hp, rfl⟩
      exact (isEmptyVal_trim_iff p.2).mpr (h p hp)
  · intro env i
    rw [rowStep_ok env i (liftRow row) _ hn]
    by_cases he : isEmptyVals (row.map (fun p => trimVal p.2)) = true
    · simp [he]
    · cases hA : env.attemptOk i <;> cases hB : env.rollbackSpOk i <;>
        cases hC : env.fullRollbackOk i <;> cases hD : env.reconnectOk i <;>
        simp [he, hA, hB, hC, hD]
  · intro env i
    rw [rowStep_ok env i (liftRow row) _ hn]
    by_cases he : isEmptyVals (row.map (fun p => trimVal p.2)) = true
    · simp [he, attemptMade]
    · cases hA : env.attemptOk i <;> cases hB : env.rollbackSpOk i <;>
        cases hC : env.fullRollbackOk i <;> cases hD : env.reconnectOk i <;>
        simp [he, hA, hB, hC, hD, attemptMade]

/-- Witness for claim C6 (amended) on a record with one padded string value
and one None value: trimming and totality, concretely. -/
theorem normalizer_total_and_classifies_witness :
    normalize (liftRow rowTrimming)
      = Except.ok ([chars "a", chars "b"],
          [PyVal.str (chars "x"), PyVal.none]) := by
  have h := (normalizer_total_and_classifies rowTrimming (by decide) (by decide)).1
  rw [h]
  rfl

/-- Counterexample to claim C7 as stated: a zero-column row is not rejected
and produces no build error — it is vacuously all-empty, so it is counted
as skipped. -/
theorem zero_column_row_not_rejected :
    (ingest envAllOk [([] : Row)]).skippedEmpty = 1 ∧
    (ingest envAllOk [([] : Row)]).rejected = 0 ∧
    (ingest envAllOk [([] : Row)]).inserted = 0 ∧
    (ingest envAllOk [([] : Row)]).raised = Option.none := by
  decide

/-- Claim C7 (amended): a row with an empty column set is classified
all-empty and skipped before any statement is built, and the statement
builder is total — it yields an InsertStatement with one placeholder per
column for every column set, with no build-error case. -/
theorem zero_column_row_skipped_builder_total :
    (∀ env i, rowStep env i ([] : Row) = RowStep.skipped) ∧
    (∀ cols, buildInsert cols =
      { schema := SCHEMA, table := chars "employee", columns := cols,
        placeholderCount := cols.length }) := by
  exact ⟨fun env i => rfl, fun cols => rfl⟩

/-- Counterexample to claim C8 as stated: an exception during row
processing (here the whitespace-header KeyError) propagates before the
commit block, so the finally block never runs and neither close is called. -/
theorem crash_leaks_connection :
    (ingest envAllOk [rowWhitespaceKey]).raised
      = some (PyError.keyError (chars "dept")) ∧
    (ingest envAllOk [rowWhitespaceKey]).curCloseCalled = false ∧
    (ingest envAllOk [rowWhitespaceKey]).connCloseCalled = false := by
  decide

/-- Claim C8 (amended): on every exit path that reaches finalization —
normal completion, halt after a failed reconnect, and commit failure —
cursor close is invoked, and connection close is invoked whenever cursor
close succeeds; on a propagating row-processing exception neither resource
is released. -/
theorem resources_released_when_no_crash (env : Env) (rows : List Row) :
    ((ingest env rows).raised = Option.none →
      (ingest env rows).curCloseCalled = true ∧
      (env.curCloseOk = true → (ingest env rows).connCloseCalled = true)) ∧
    ((ingest env rows).raised ≠ Option.none →
      (ingest env rows).curCloseCalled = false ∧
      (ingest env rows).connCloseCalled = false) := by
  rcases hres : loop env 1 rows initState with ⟨s2, ex⟩
  cases ex <;> simp [ingest, hres]

/-- Witness for claim C8 (amended) on a crash-free run. -/
theorem resources_released_when_no_crash_witness :
    (ingest envAllOk ([] : List Row)).curCloseCalled = true ∧
    (ingest envAllOk ([] : List Row)).connCloseCalled = true := by
  have h := (resources_released_when_no_crash envAllOk []).1 rfl
  exact ⟨h.1, h.2 rfl⟩

end Pipeline

namespace Uploader

open Pipeline

/-- Helper: replacing two consecutive dots by an underscore, left to right
and non-overlapping, leaves no two consecutive dots in the output; moreover
the output starts with a dot only if the input did. -/
theorem replaceDotDot_no_dd (s : List Char) :
    hasDD (replaceDotDot s) = false ∧
    ((replaceDotDot s).head? = some '.' → s.head? = some '.') := by
  induction s using replaceDotDot.induct with
  | case1 => simp [replaceDotDot, hasDD]
  | case2 c => simp [replaceDotDot, hasDD]
  | case3 c1 c2 cs h ih =>
    have hrw : replaceDotDot (c1 :: c2 :: cs) = '_' :: replaceDotDot cs := by
      simp [replaceDotDot, h]
    refine ⟨?_, ?_⟩
    · rw [hrw]
      cases hrec : replaceDotDot cs with
      | nil => simp [hasDD]
      | cons y ys =>
        have h1 := ih.1
        rw [hrec] at h1
        simp [hasDD, h1]
    · rw [hrw]
      intro hcontra
      simp at hcontra
  | case4 c1 c2 cs h ih =>
    have hrw : replaceDotDot (c1 :: c2 :: cs) = c1 :: replaceDotDot (c2 :: cs) := by
      simp [replaceDotDot, h]
    refine ⟨?_, ?_⟩
    · rw [hrw]
      cases hrec : replaceDotDot (c2 :: cs) with
      | nil => simp [hasDD]
      | cons y ys =>
        have h1 := ih.1
        have h2 := ih.2
        rw [hrec] at h1 h2
        simp [hasDD, h1]
        intro hc1 hy
        have hc2 : c2 = '.' := by
          have := h2 (by simp [hy])
          simpa using this
        exact h ⟨hc1, hc2⟩
    · rw [hrw]
      intro hcontra
      simp at hcontra
      simp [hcontra]

/-- Helper: slash replacement is a character map. -/
theorem replaceSlash_eq_map (s : List Char) :
    replaceSlash s = s.map (fun c => if c = '/' then '_' else c) := by
  induction s with
  | nil => rfl
  | cons c cs ih => simp [replaceSlash, ih]

/-- Helper: the slash-to-underscore character map introduces no pair of
consecutive dots. -/
theorem hasDD_map_noslash (s : List Char) (hs : hasDD s = false) :
    hasDD (s.map (fun c => if c = '/' then '_' else c)) = false := by
  induction s with
  | nil => simp [hasDD]
  | cons c cs ih =>
    cases cs with
    | nil => simp [hasDD, List.map_cons]
    | cons c2 cs2 =>
      rw [hasDD, Bool.or_eq_false_iff] at hs
      rw [List.map_cons, List.map_cons, hasDD,
        show ((if c2 = '/' then '_' else c2) ::
              List.map (fun c => if c = '/' then '_' else c) cs2)
            = List.map (fun c => if c = '/' then '_' else c) (c2 :: cs2) from rfl,
        Bool.or_eq_false_iff]
      refine ⟨?_, ih hs.2⟩
      have h1 := hs.1
      by_cases hc : c = '/'
      · simp [hc]
      · by_cases hc2 : c2 = '/'
        · simp [hc2]
        · simp [hc, hc2] at h1 ⊢
          tauto

/-- Helper: slash replacement preserves the absence of consecutive dots. -/
theorem replaceSlash_preserves_no_dd (s : List Char) (hs : hasDD s = false) :
    hasDD (replaceSlash s) = false := by
  rw [replaceSlash_eq_map]
  exact hasDD_map_noslash s hs

/-- Helper: no slash survives slash replacement. -/
theorem replaceSlash_no_slash (s : List Char) : '/' ∉ replaceSlash s := by
  rw [replaceSlash_eq_map]
  intro hmem
  rcases List.mem_map.mp hmem with ⟨a, _, ha⟩
  by_cases h : a = '/'
  · rw [if_pos h] at ha
    exact absurd ha (by decide)
  · rw [if_neg h] at ha
    exact h ha

/-- Helper: dropping the head preserves the absence of consecutive dots. -/
theorem hasDD_tail (a : Char) (t : List Char) (h : hasDD (a :: t) = false) :
    hasDD t = false := by
  cases t with
  | nil => rfl
  | cons y ys =>
    rw [hasDD, Bool.or_eq_false_iff] at h
    exact h.2

/-- Helper: a list without consecutive dots contains no two-dot substring. -/
theorem hasDD_eq_false_not_substring :
    ∀ (l s r : List Char), hasDD s = false → s ≠ l ++ '.' :: '.' :: r := by
  intro l
  induction l with
  | nil =>
    intro s r hs heq
    subst heq
    simp [hasDD] at hs
  | cons x l2 ih =>
    intro s r hs heq
    subst heq
    rw [List.cons_append] at hs
    exact ih (l2 ++ '.' :: '.' :: r) r (hasDD_tail x _ hs) rfl

/-- Claim C9: whenever the endpoint reaches the audit step (authenticated,
approved, filename present, signing succeeded), the response is the same
whether the audit write succeeds or fails, and it is a 200 carrying the
signed URL — the audit failure is logged inside record_upload_request and
never raises or alters the response. -/
theorem audit_failure_never_blocks (env : UpEnv) (req : UpRequest)
    (tok : PyStr × Option PyStr) (fn : PyStr)
    (h1 : req.authDecoded = some tok) (h2 : env.approved = true)
    (h3 : req.filename = some fn) (h4 : fn.isEmpty = false)
    (h5 : env.signOk = true) :
    get_signed_url { env with auditOk := true } req
      = get_signed_url { env with auditOk := false } req ∧
    (get_signed_url env req).status = 200 ∧
    (get_signed_url env req).hasUrl = true := by
  refine ⟨?_, ?_, ?_⟩ <;> simp [get_signed_url, h1, h2, h3, h4, h5]

/-- Witness for claim C9 on a concrete authenticated request. -/
theorem audit_failure_never_blocks_witness :
    (get_signed_url upEnvOk upReqPlain).status = 200 ∧
    get_signed_url { upEnvOk with auditOk := true } upReqPlain
      = get_signed_url { upEnvOk with auditOk := false } upReqPlain := by
  have h := audit_failure_never_blocks upEnvOk upReqPlain
    (chars "u1", some (chars "u1@example.com")) (chars "data.csv")
    rfl rfl rfl rfl rfl
  exact ⟨h.2.1, h.1⟩

/-- Claim C10: the object name issued by the endpoint is the configured
upload prefix followed by the sanitized filename, and the sanitized name
contains no slash and no two-dot substring, so the issued object cannot
escape the prefix by path traversal. -/
theorem issued_object_name_sanitized (env : UpEnv) (req : UpRequest)
    (tok : PyStr × Option PyStr) (fn : PyStr)
    (h1 : req.authDecoded = some tok) (h2 : env.approved = true)
    (h3 : req.filename = some fn) (h4 : fn.isEmpty = false)
    (h5 : env.signOk = true) :
    (get_signed_url env req).objectName
      = some (env.uploadPrefix ++ sanitizeName fn) ∧
    '/' ∉ sanitizeName fn ∧
    ∀ l r, sanitizeName fn ≠ l ++ '.' :: '.' :: r := by
  refine ⟨by simp [get_signed_url, h1, h2, h3, h4, h5],
    replaceSlash_no_slash _, ?_⟩
  intro l r
  exact hasDD_eq_false_not_substring l _ r
    (replaceSlash_preserves_no_dd _ (replaceDotDot_no_dd fn).1)

/-- Witness for claim C10 on a path-traversal filename. -/
theorem issued_object_name_sanitized_witness :
    (get_signed_url upEnvOk upReqTraversal).objectName
      = some (chars "incoming/____etc_passwd") ∧
    '/' ∉ sanitizeName (chars "../../etc/passwd") := by
  have h := issued_object_name_sanitized upEnvOk upReqTraversal
    (chars "u1", some (chars "u1@example.com")) (chars "../../etc/passwd")
    rfl rfl rfl rfl rfl
  refine ⟨?_, h.2.1⟩
  rw [h.1]
  decide

end Uploader
